import Mathlib

/-!
Shallow embedding of `leopardweb_courses.py` (LeopardWeb course catalog
fetcher): the session initializer, the paginated catalog fetch loop, the
per-course detail enrichment, and the `flatten_course_data` record flattener,
together with theorems settling the specification claims.

Modelling conventions:
* HTTP traffic is modelled by oracle functions from request parameters to
  abstract responses; `requests` exceptions and status codes become explicit
  constructors.
* JSON dictionaries become structures.  A key that the Python code reads only
  through `dict.get(k, default)` (or only tests for truthiness) is modelled at
  the default-collapsed type when the two are observationally identical:
  e.g. a day flag is a `Bool` (absent ≡ `False`), a string read via
  `get(k, "")` and then only compared for truthiness keeps `Option` only where
  a claim distinguishes absence.
* Scalar passthrough values (enrollment counts etc.) are modelled as strings;
  `flatten_course_data` only moves them, never computes with them.
-/

/-- One page of `searchResults` JSON as consumed by `get_course_catalog`:
`data.get("data", [])` and `data.get("totalCount", 0)` (the `Option` models
a missing `totalCount` key, read with default `0` on the first page only). -/
structure Page (α : Type) where
  data : List α
  totalCount : Option Nat
  deriving DecidableEq

/-- `page_size = 500` in `get_course_catalog`. -/
def pageSize : Nat := 500

/-- The `while True` pagination loop of `get_course_catalog`, with the
server modelled as a pure function from `pageOffset` to the page response
and the unbounded loop rendered with explicit fuel (`none` = fuel ran out).
Body, faithful to the source: fetch the page at `offset`, extend the
accumulator, break when `len(all_courses) >= total_count or not courses`,
otherwise `offset += page_size`.  The result also counts the number of page
requests issued. -/
def fetchLoop (server : Nat → Page α) (tc : Nat) :
    Nat → List α → Nat → Option (List α × Nat)
  | 0, _, _ => none
  | fuel + 1, acc, off =>
    if tc ≤ (acc ++ (server off).data).length || (server off).data.isEmpty then
      some (acc ++ (server off).data, 1)
    else
      match fetchLoop server tc fuel (acc ++ (server off).data) (off + pageSize) with
      | none => none
      | some (res, n) => some (res, n + 1)

/-- The catalog-fetch phase of `get_course_catalog`: `total_count` is captured
from the first page (default `0` when the key is missing) and the loop is run
from `offset = 0` with empty accumulator.  Fuel `tc + 1` is sufficient
(proved below), so a `some` result is the loop's actual outcome. -/
def catalogFetch (server : Nat → Page α) : Option (List α × Nat) :=
  let tc := ((server 0).totalCount).getD 0
  fetchLoop server tc (tc + 1) [] 0

/-- ASCII whitespace as removed by Python's `str.strip()` (only plain spaces
actually occur in the location strings assembled by `flatten_course_data`). -/
def isPySpace (ch : Char) : Bool :=
  ch = ' ' || ch = '\t' || ch = '\n' || ch = '\r'

/-- Python `str.strip()`: drop leading and trailing whitespace. -/
def pyStrip (s : String) : String :=
  String.mk (((s.toList.dropWhile isPySpace).reverse.dropWhile isPySpace).reverse)

/-- One `meetingTime` JSON object as read by `flatten_course_data`.  Every key
is read with `mt.get(day)` (truthiness) or `mt.get(k, "")`, so absent keys are
modelled by `false` / `""`, which the code cannot distinguish from absence. -/
structure MeetingTime where
  monday : Bool
  tuesday : Bool
  wednesday : Bool
  thursday : Bool
  friday : Bool
  saturday : Bool
  sunday : Bool
  beginTime : String
  endTime : String
  building : String
  buildingDescription : String
  room : String
  deriving DecidableEq

/-- A `meetingTime` object with every key absent. -/
def emptyMeetingTime : MeetingTime :=
  { monday := false, tuesday := false, wednesday := false, thursday := false,
    friday := false, saturday := false, sunday := false,
    beginTime := "", endTime := "", building := "", buildingDescription := "", room := "" }

/-- One entry of `meetingsFaculty` or `_faculty_meeting_times`; the code reads
only `entry.get("meetingTime", {})` from it. -/
structure MeetingEntry where
  meetingTime : Option MeetingTime
  deriving DecidableEq

/-- `entry.get("meetingTime", {})`. -/
def meetingTimeOf (e : MeetingEntry) : MeetingTime :=
  e.meetingTime.getD emptyMeetingTime

/-- One entry of the summary's `faculty` list; the code reads only
`faculty.get("displayName", "")`. -/
structure Faculty where
  displayName : String
  deriving DecidableEq

/-- The `_detailed` payload from `getClassDetails`; `flatten_course_data`
never reads it, so its contents are opaque here. -/
structure ClassDetail where
  body : String
  deriving DecidableEq

/-- A `CourseSummary` record from a catalog page.  Scalar keys are read only
via `course.get(k, "")`, so string-valued and absent-able; the list-valued keys
keep `Option` because Python distinguishes key-absent from key-present in
`course.get(k)` truthiness tests (both falsy when the list is empty).
`detailed` and `fmtTimes` are the `_detailed` / `_faculty_meeting_times` keys
added by the enrichment pass. -/
structure Course where
  courseReferenceNumber : Option String
  subject : Option String
  courseNumber : Option String
  sequenceNumber : Option String
  courseTitle : Option String
  creditHours : Option String
  scheduleTypeDescription : Option String
  instructionalMethod : Option String
  campusDescription : Option String
  enrollment : Option String
  maximumEnrollment : Option String
  seatsAvailable : Option String
  waitCount : Option String
  waitCapacity : Option String
  faculty : Option (List Faculty)
  meetingsFaculty : Option (List MeetingEntry)
  detailed : Option ClassDetail
  fmtTimes : Option (List MeetingEntry)
  deriving DecidableEq

/-- A summary with every key absent. -/
def emptyCourse : Course :=
  { courseReferenceNumber := none, subject := none, courseNumber := none,
    sequenceNumber := none, courseTitle := none, creditHours := none,
    scheduleTypeDescription := none, instructionalMethod := none,
    campusDescription := none, enrollment := none, maximumEnrollment := none,
    seatsAvailable := none, waitCount := none, waitCapacity := none,
    faculty := none, meetingsFaculty := none, detailed := none, fmtTimes := none }

/-- Python truthiness of a list-valued `course.get(k)`: key present with a
nonempty list. -/
def truthyList (o : Option (List β)) : Bool :=
  match o with
  | some (_ :: _) => true
  | _ => false

/-- The inner day loop of `flatten_course_data`: iterate
`["monday", ..., "sunday"]`, appending `day[0].upper()` for each truthy flag,
then `"".join(days)`. -/
def dayString (mt : MeetingTime) : String :=
  String.join ((if mt.monday then ["M"] else []) ++ (if mt.tuesday then ["T"] else []) ++
    (if mt.wednesday then ["W"] else []) ++ (if mt.thursday then ["T"] else []) ++
    (if mt.friday then ["F"] else []) ++ (if mt.saturday then ["S"] else []) ++
    (if mt.sunday then ["S"] else []))

/-- Per-entry day strings: appended only when the `days` list is nonempty
(`if days:`), i.e. when some flag was truthy. -/
def meetingDaysList (es : List MeetingEntry) : List String :=
  es.filterMap (fun e =>
    if dayString (meetingTimeOf e) = "" then none
    else some (dayString (meetingTimeOf e)))

/-- Per-entry time strings: `f"{begin_time}-{end_time}"`, appended only when
both `beginTime` and `endTime` are truthy (`if begin_time and end_time:`). -/
def meetingTimesList (es : List MeetingEntry) : List String :=
  es.filterMap (fun e =>
    if (meetingTimeOf e).beginTime ≠ "" ∧ (meetingTimeOf e).endTime ≠ "" then
      some ((meetingTimeOf e).beginTime ++ "-" ++ (meetingTimeOf e).endTime)
    else none)

/-- `location = building_desc if building_desc else building` in the
faculty-meeting-times branch. -/
def fmtBaseLocation (mt : MeetingTime) : String :=
  if mt.buildingDescription ≠ "" then mt.buildingDescription else mt.building

/-- `if room: location = f"{location} {room}".strip()`. -/
def fmtLocationString (mt : MeetingTime) : String :=
  if mt.room ≠ "" then pyStrip (fmtBaseLocation mt ++ " " ++ mt.room)
  else fmtBaseLocation mt

/-- Location of one faculty-meeting-times entry, appended only when the final
assembled string is truthy (`if location:`). -/
def fmtLocation (mt : MeetingTime) : Option String :=
  if fmtLocationString mt ≠ "" then some (fmtLocationString mt) else none

/-- Per-entry locations in the faculty-meeting-times branch. -/
def fmtLocationsList (es : List MeetingEntry) : List String :=
  es.filterMap (fun e => fmtLocation (meetingTimeOf e))

/-- Location of one embedded `meetingsFaculty` entry: `f"{building} {room}"`,
stripped, appended when `building or room` is truthy. -/
def embLocation (mt : MeetingTime) : Option String :=
  if mt.building ≠ "" ∨ mt.room ≠ "" then some (pyStrip (mt.building ++ " " ++ mt.room))
  else none

/-- Per-entry locations in the embedded fallback branch. -/
def embLocationsList (es : List MeetingEntry) : List String :=
  es.filterMap (fun e => embLocation (meetingTimeOf e))

/-- `faculty_names`: display names of the `faculty` list entries, skipping
falsy (empty) names. -/
def facultyNames (course : Course) : List String :=
  (course.faculty.getD []).filterMap
    (fun f => if f.displayName ≠ "" then some f.displayName else none)

/-- `meeting_days` of `flatten_course_data`: detailed faculty-meeting-times
first (`if course.get("_faculty_meeting_times"):`), else embedded
`meetingsFaculty` (`elif`), else empty. -/
def courseMeetingDays (course : Course) : List String :=
  if truthyList course.fmtTimes then meetingDaysList (course.fmtTimes.getD [])
  else if truthyList course.meetingsFaculty then
    meetingDaysList (course.meetingsFaculty.getD [])
  else []

/-- `meeting_times` of `flatten_course_data`, same branch structure. -/
def courseMeetingTimes (course : Course) : List String :=
  if truthyList course.fmtTimes then meetingTimesList (course.fmtTimes.getD [])
  else if truthyList course.meetingsFaculty then
    meetingTimesList (course.meetingsFaculty.getD [])
  else []

/-- `meeting_locations` of `flatten_course_data`: the two branches use the
different location rules. -/
def courseMeetingLocations (course : Course) : List String :=
  if truthyList course.fmtTimes then fmtLocationsList (course.fmtTimes.getD [])
  else if truthyList course.meetingsFaculty then
    embLocationsList (course.meetingsFaculty.getD [])
  else []

/-- The flattened output row of `flatten_course_data` (the Python dict keys
"CRN", "Subject", ..., "Waitlist Max" in order; `sectionNumber` stands for the
"Section" key since `section` is reserved in Lean). -/
structure FlatRecord where
  crn : String
  subject : String
  courseNumber : String
  sectionNumber : String
  title : String
  creditHours : String
  scheduleType : String
  instructionalMethod : String
  faculty : String
  meetingDays : String
  meetingTimes : String
  location : String
  campus : String
  enrollmentCurrent : String
  enrollmentMax : String
  seatsAvailable : String
  waitlistCurrent : String
  waitlistMax : String
  deriving DecidableEq

/-- `flatten_course_data`: merge the summary with its optional attachments
into one flat row.  `", ".join(xs) if xs else ""` is `String.intercalate`
(the two agree on the empty list). -/
def flatten_course_data (course : Course) : FlatRecord :=
  { crn := course.courseReferenceNumber.getD ""
    subject := course.subject.getD ""
    courseNumber := course.courseNumber.getD ""
    sectionNumber := course.sequenceNumber.getD ""
    title := course.courseTitle.getD ""
    creditHours := course.creditHours.getD ""
    scheduleType := course.scheduleTypeDescription.getD ""
    instructionalMethod := course.instructionalMethod.getD ""
    faculty := String.intercalate ", " (facultyNames course)
    meetingDays := String.intercalate ", " (courseMeetingDays course)
    meetingTimes := String.intercalate ", " (courseMeetingTimes course)
    location := String.intercalate ", " (courseMeetingLocations course)
    campus := course.campusDescription.getD ""
    enrollmentCurrent := course.enrollment.getD ""
    enrollmentMax := course.maximumEnrollment.getD ""
    seatsAvailable := course.seatsAvailable.getD ""
    waitlistCurrent := course.waitCount.getD ""
    waitlistMax := course.waitCapacity.getD "" }

/-- Outcome of one `requests` call in the per-course enrichment lookups:
a raised `RequestException`, or a response carrying its HTTP status and the
parsed JSON body (`none` body = empty `response.text`, which the code maps to
`None`, and likewise a falsy parsed body). -/
inductive LookupResponse (α : Type) where
  | failure
  | response (status : Nat) (body : Option α)
  deriving DecidableEq

/-- `raise_for_status()` raises exactly for 4xx/5xx status codes. -/
def isErrorStatus (status : Nat) : Bool := 400 ≤ status

/-- Shared result shape of `get_class_details` / `get_faculty_meeting_times`:
a transport failure or error status is caught (`except RequestException`) and
becomes `None`; an empty body is `None`; otherwise the parsed body. -/
def lookupResult : LookupResponse α → Option α
  | .failure => none
  | .response status body => if isErrorStatus status then none else body

/-- The `getFacultyMeetingTimes` response body: only its `"fmt"` key is read
(`none` = key absent). -/
structure FmtResponse where
  fmt : Option (List MeetingEntry)
  deriving DecidableEq

/-- `get_class_details(term, crn)`, with the transport modelled by the
per-CRN oracle `d`. -/
def get_class_details (d : String → LookupResponse ClassDetail) (crn : String) :
    Option ClassDetail :=
  lookupResult (d crn)

/-- `get_faculty_meeting_times(term, crn)`, transport modelled by `f`. -/
def get_faculty_meeting_times (f : String → LookupResponse FmtResponse) (crn : String) :
    Option FmtResponse :=
  lookupResult (f crn)

/-- `if details: course["_detailed"] = details`. -/
def attachDetails (d : String → LookupResponse ClassDetail) (crn : String)
    (course : Course) : Course :=
  match get_class_details d crn with
  | some det => { course with detailed := some det }
  | none => course

/-- `if meeting_times and meeting_times.get("fmt"):
course["_faculty_meeting_times"] = meeting_times["fmt"]` — the attachment
happens only for a truthy (nonempty) `fmt` list, and the attached value is the
`fmt` list itself. -/
def attachFmt (f : String → LookupResponse FmtResponse) (crn : String)
    (course : Course) : Course :=
  match get_faculty_meeting_times f crn with
  | some resp =>
    match resp.fmt with
    | some (m :: ms) => { course with fmtTimes := some (m :: ms) }
    | _ => course
  | none => course

/-- The per-course body of the `detailed` enrichment loop in
`get_course_catalog`: skip when the summary has no truthy CRN
(`crn = course.get("courseReferenceNumber"); if crn:`), otherwise run both
independent lookups. -/
def enrichOne (d : String → LookupResponse ClassDetail)
    (f : String → LookupResponse FmtResponse) (course : Course) : Course :=
  match course.courseReferenceNumber with
  | none => course
  | some crn =>
    if crn = "" then course
    else attachFmt f crn (attachDetails d crn course)

/-- The enrichment pass over `all_courses` (an in-place update per element in
Python; order and length are untouched). -/
def enrichCourses (d : String → LookupResponse ClassDetail)
    (f : String → LookupResponse FmtResponse) (courses : List Course) : List Course :=
  courses.map (enrichOne d f)

/-- `get_course_catalog(term, detailed)`: run the paginated fetch, then when
`detailed` is set run the enrichment pass over the fetched summaries (the
`detailed and all_courses` guard equals mapping over the empty list). -/
def get_course_catalog (server : Nat → Page Course)
    (d : String → LookupResponse ClassDetail) (f : String → LookupResponse FmtResponse)
    (detailed : Bool) : Option (List Course × Nat) :=
  match catalogFetch server with
  | none => none
  | some (cs, n) => some ((if detailed then enrichCourses d f cs else cs), n)

/-- Result of the `POST term/search` transport call inside
`initialize_search_session`: a raised exception, or a response with its status
and the optional `JSESSIONID` cookie value. -/
inductive InitResponse where
  | failure
  | response (status : Nat) (jsessionid : Option String)
  deriving DecidableEq

/-- The client's mutable `session_cookie` attribute. -/
structure ClientState where
  sessionCookie : Option String
  deriving DecidableEq

/-- `initialize_search_session`: a transport failure or `raise_for_status`
error is caught and re-raised as `Failed to initialize search session`; a
missing or falsy (empty) `JSESSIONID` cookie raises
`Failed to obtain session cookie`; on success the cookie value is stored in
`self.session_cookie` and returned. -/
def initialize_search_session (st : ClientState) (r : InitResponse) :
    Except String (String × ClientState) :=
  match r with
  | .failure => .error "Failed to initialize search session"
  | .response status jsessionid =>
    if isErrorStatus status then .error "Failed to initialize search session"
    else
      match jsessionid with
      | none => .error "Failed to obtain session cookie"
      | some j =>
        if j = "" then .error "Failed to obtain session cookie"
        else .ok (j, { st with sessionCookie := some j })

/-- Equality of all flattened fields except the three meeting-derived ones
(Meeting Days, Meeting Times, Location). -/
def agreeNonMeeting (r1 r2 : FlatRecord) : Prop :=
  r1.crn = r2.crn ∧ r1.subject = r2.subject ∧ r1.courseNumber = r2.courseNumber ∧
  r1.sectionNumber = r2.sectionNumber ∧ r1.title = r2.title ∧
  r1.creditHours = r2.creditHours ∧ r1.scheduleType = r2.scheduleType ∧
  r1.instructionalMethod = r2.instructionalMethod ∧ r1.faculty = r2.faculty ∧
  r1.campus = r2.campus ∧ r1.enrollmentCurrent = r2.enrollmentCurrent ∧
  r1.enrollmentMax = r2.enrollmentMax ∧ r1.seatsAvailable = r2.seatsAvailable ∧
  r1.waitlistCurrent = r2.waitlistCurrent ∧ r1.waitlistMax = r2.waitlistMax

/-- Equality of the sixteen summary keys: everything except the `_detailed`
and `_faculty_meeting_times` attachment keys. -/
def sameSummaryFields (c1 c2 : Course) : Prop :=
  c1.courseReferenceNumber = c2.courseReferenceNumber ∧ c1.subject = c2.subject ∧
  c1.courseNumber = c2.courseNumber ∧ c1.sequenceNumber = c2.sequenceNumber ∧
  c1.courseTitle = c2.courseTitle ∧ c1.creditHours = c2.creditHours ∧
  c1.scheduleTypeDescription = c2.scheduleTypeDescription ∧
  c1.instructionalMethod = c2.instructionalMethod ∧
  c1.campusDescription = c2.campusDescription ∧ c1.enrollment = c2.enrollment ∧
  c1.maximumEnrollment = c2.maximumEnrollment ∧ c1.seatsAvailable = c2.seatsAvailable ∧
  c1.waitCount = c2.waitCount ∧ c1.waitCapacity = c2.waitCapacity ∧
  c1.faculty = c2.faculty ∧ c1.meetingsFaculty = c2.meetingsFaculty

/-- The `meetingTime` of the worked spec example: `{monday: true,
wednesday: true, beginTime: "1000", endTime: "1050", building: "WENT",
room: "100"}`. -/
def smithMT : MeetingTime :=
  { emptyMeetingTime with
    monday := true
    wednesday := true
    beginTime := "1000"
    endTime := "1050"
    building := "WENT"
    room := "100" }

/-- The summary of the worked spec example: `faculty=[{displayName:
"A. Smith"}]`, one embedded meeting entry, no detail attachments. -/
def smithCourse : Course :=
  { emptyCourse with
    faculty := some [{ displayName := "A. Smith" }]
    meetingsFaculty := some [{ meetingTime := some smithMT }] }

/-- A meeting entry contributing only a day string (no times, no location). -/
def eDayOnly : MeetingEntry :=
  { meetingTime := some { emptyMeetingTime with monday := true } }

/-- A meeting entry contributing a day string and a time string but no
location. -/
def eDayTime : MeetingEntry :=
  { meetingTime := some
      { emptyMeetingTime with
        tuesday := true
        beginTime := "0800"
        endTime := "0900" } }

/-- A summary whose attached faculty-meeting-times produce differently sized
day/time/location lists. -/
def mismatchCourse : Course :=
  { emptyCourse with fmtTimes := some [eDayOnly, eDayTime] }

/-- A summary carrying only a course reference number, for exercising the
enrichment loop. -/
def crnOnlyCourse : Course :=
  { emptyCourse with courseReferenceNumber := some "12345" }


theorem fetchLoop_isSome (server : Nat → Page α) (tc : Nat) :
    ∀ (fuel : Nat) (acc : List α) (off : Nat), tc - acc.length < fuel →
      (fetchLoop server tc fuel acc off).isSome = true := by
  intro fuel
  induction fuel with
  | zero => intro acc off h; omega
  | succ f ih =>
    intro acc off hfuel
    simp only [fetchLoop]
    by_cases hstop :
        (decide (tc ≤ (acc ++ (server off).data).length) || (server off).data.isEmpty) = true
    · rw [if_pos hstop]; rfl
    · rw [if_neg hstop]
      simp only [Bool.or_eq_true, decide_eq_true_eq, List.isEmpty_iff,
        List.length_append, not_or] at hstop
      obtain ⟨hlt, hne⟩ := hstop
      have hpos : 0 < (server off).data.length := List.length_pos.mpr hne
      have hrec := ih (acc ++ (server off).data) (off + pageSize)
        (by simp only [List.length_append]; omega)
      rcases hres : fetchLoop server tc f (acc ++ (server off).data) (off + pageSize) with
        _ | ⟨res, n⟩
      · rw [hres] at hrec; simp at hrec
      · simp

theorem fetchLoop_fuel_stable (server : Nat → Page α) (tc : Nat) :
    ∀ (f1 f2 : Nat) (acc : List α) (off : Nat),
      tc - acc.length < f1 → tc - acc.length < f2 →
      fetchLoop server tc f1 acc off = fetchLoop server tc f2 acc off := by
  intro f1
  induction f1 with
  | zero => intro f2 acc off h _; omega
  | succ f ih =>
    intro f2 acc off h1 h2
    rcases f2 with _ | f2'
    · omega
    simp only [fetchLoop]
    by_cases hstop :
        (decide (tc ≤ (acc ++ (server off).data).length) || (server off).data.isEmpty) = true
    · rw [if_pos hstop, if_pos hstop]
    · rw [if_neg hstop, if_neg hstop]
      simp only [Bool.or_eq_true, decide_eq_true_eq, List.isEmpty_iff,
        List.length_append, not_or] at hstop
      obtain ⟨hlt, hne⟩ := hstop
      have hpos : 0 < (server off).data.length := List.length_pos.mpr hne
      rw [ih f2' (acc ++ (server off).data) (off + pageSize)
        (by simp only [List.length_append]; omega)
        (by simp only [List.length_append]; omega)]

theorem catalogFetch_isSome (server : Nat → Page α) :
    (catalogFetch server).isSome = true := by
  unfold catalogFetch
  exact fetchLoop_isSome server _ _ [] 0 (by simp)

theorem fetchLoop_full_pages (server : Nat → Page α) (tc r : Nat) (hr : 0 < r) :
    ∀ (k fuel : Nat) (acc : List α) (off : Nat),
      acc.length + k * pageSize + r = tc →
      (∀ i, i < k → ((server (off + i * pageSize)).data).length = pageSize) →
      ((server (off + k * pageSize)).data).length = r →
      k < fuel →
      ∃ res : List α × Nat, fetchLoop server tc fuel acc off = some res ∧
        res.1.length = tc ∧ res.2 = k + 1 := by
  intro k
  induction k with
  | zero =>
    intro fuel acc off hsum hfull hlast hk
    rcases fuel with _ | f
    · omega
    simp only [Nat.zero_mul, Nat.add_zero] at hsum hlast
    have hcond :
        (decide (tc ≤ (acc ++ (server off).data).length) || (server off).data.isEmpty) = true := by
      simp only [Bool.or_eq_true, decide_eq_true_eq, List.isEmpty_iff, List.length_append]
      left
      rw [hlast]
      omega
    refine ⟨(acc ++ (server off).data, 1), ?_, ?_, rfl⟩
    · simp only [fetchLoop]; rw [if_pos hcond]
    · rw [List.length_append, hlast]; omega
  | succ k ih =>
    intro fuel acc off hsum hfull hlast hk
    rcases fuel with _ | f
    · omega
    have h0 := hfull 0 (Nat.succ_pos k)
    have hlen : (server off).data.length = pageSize := by simpa using h0
    have hcond :
        ¬ ((decide (tc ≤ (acc ++ (server off).data).length) ||
            (server off).data.isEmpty) = true) := by
      simp only [Bool.or_eq_true, decide_eq_true_eq, List.isEmpty_iff, not_or]
      constructor
      · rw [List.length_append, hlen]
        simp only [pageSize] at hsum ⊢
        omega
      · intro hnil
        rw [hnil] at hlen
        simp [pageSize] at hlen
    have hsum2 : (acc ++ (server off).data).length + k * pageSize + r = tc := by
      rw [List.length_append, hlen]
      simp only [pageSize] at hsum ⊢
      omega
    have hfull2 : ∀ i, i < k →
        ((server (off + pageSize + i * pageSize)).data).length = pageSize := by
      intro i hi
      have hstep := hfull (i + 1) (by omega)
      have heq : off + (i + 1) * pageSize = off + pageSize + i * pageSize := by ring
      rw [heq] at hstep
      exact hstep
    have hlast2 : ((server (off + pageSize + k * pageSize)).data).length = r := by
      have heq : off + (k + 1) * pageSize = off + pageSize + k * pageSize := by ring
      rw [heq] at hlast
      exact hlast
    obtain ⟨⟨l, n⟩, hres, hreslen, hresn⟩ :=
      ih f (acc ++ (server off).data) (off + pageSize) hsum2 hfull2 hlast2 (by omega)
    refine ⟨(l, n + 1), ?_, hreslen, by omega⟩
    simp only [fetchLoop]
    rw [if_neg hcond, hres]

/-- C1: for every sequence of server page responses the catalog fetch loop of
`get_course_catalog` terminates.  With the unbounded `while True` rendered by
fuel, any fuel above `totalCount - len(accumulated)` yields a result (`isSome`)
and the result is independent of the fuel, i.e. the loop genuinely stops: after
each page it stops as soon as the accumulated count reaches `totalCount` or the
page was empty, and otherwise recurses at `offset + pageSize` (the definition of
`fetchLoop`); in particular the whole `catalogFetch` run with fuel
`totalCount + 1` succeeds. -/
theorem catalog_loop_terminates (server : Nat → Page α) (tc fuel : Nat)
    (acc : List α) (off : Nat) (h : tc - acc.length < fuel) :
    (fetchLoop server tc fuel acc off).isSome = true ∧
    (∀ fuel2, tc - acc.length < fuel2 →
      fetchLoop server tc fuel2 acc off = fetchLoop server tc fuel acc off) ∧
    (catalogFetch server).isSome = true :=
  ⟨fetchLoop_isSome server tc fuel acc off h,
   fun fuel2 h2 => fetchLoop_fuel_stable server tc fuel2 fuel acc off h2 h,
   catalogFetch_isSome server⟩

theorem catalog_loop_terminates_witness :
    (fetchLoop (fun _ => ({ data := [7, 8], totalCount := some 2 } : Page Nat)) 2 3 [] 0).isSome
      = true :=
  (catalog_loop_terminates (fun _ => ({ data := [7, 8], totalCount := some 2 } : Page Nat))
    2 3 [] 0 (by decide)).1

/-- C2: if the first page reports a positive `totalCount` that is not a
multiple of the page size 500, every page before the last carries exactly 500
records and the last carries the remainder, then the fetch issues exactly
`⌈totalCount / 500⌉` page requests and returns exactly `totalCount` records. -/
theorem catalog_exact_page_count (server : Nat → Page α) (tc : Nat)
    (h1 : 0 < tc) (h2 : tc % pageSize ≠ 0)
    (hfirst : (server 0).totalCount = some tc)
    (hfull : ∀ i, i < tc / pageSize → ((server (i * pageSize)).data).length = pageSize)
    (hlast : ((server (tc / pageSize * pageSize)).data).length = tc % pageSize) :
    ∃ res : List α × Nat, catalogFetch server = some res ∧
      res.1.length = tc ∧ res.2 = (tc + pageSize - 1) / pageSize := by
  have hr : 0 < tc % pageSize := Nat.pos_of_ne_zero h2
  obtain ⟨res, hres, hlen, hn⟩ :=
    fetchLoop_full_pages server tc (tc % pageSize) hr (tc / pageSize) (tc + 1) [] 0
      (by simp only [List.length_nil, Nat.zero_add]; simp only [pageSize]; omega)
      (by intro i hi; simpa using hfull i hi)
      (by simpa using hlast)
      (by simp only [pageSize]; omega)
  refine ⟨res, ?_, hlen, ?_⟩
  · simp only [catalogFetch, hfirst, Option.getD_some]
    exact hres
  · rw [hn]
    simp only [pageSize] at h2 ⊢
    omega

theorem catalog_exact_page_count_witness :
    ∃ res : List Nat × Nat,
      catalogFetch (fun _ => ({ data := [10, 20, 30], totalCount := some 3 } : Page Nat))
        = some res ∧ res.1.length = 3 ∧ res.2 = (3 + pageSize - 1) / pageSize :=
  catalog_exact_page_count (fun _ => ({ data := [10, 20, 30], totalCount := some 3 } : Page Nat))
    3 (by decide) (by decide) rfl
    (fun i hi => absurd (Nat.lt_of_lt_of_le hi (by decide)) (Nat.not_lt_zero i))
    (by decide)

/-- C3: when a summary has attached faculty-meeting-time data (a nonempty
`_faculty_meeting_times` list), the flattened Meeting Days, Meeting Times and
Location fields are computed solely from that list — replacing the embedded
`meetingsFaculty` data by anything at all changes none of the three fields,
and each equals the join over the faculty-meeting-time entries. -/
theorem flatten_fmt_supersedes (c : Course) (l : List MeetingEntry)
    (ms : Option (List MeetingEntry)) (h : c.fmtTimes = some l) (hne : l ≠ []) :
    ((flatten_course_data { c with meetingsFaculty := ms }).meetingDays =
        (flatten_course_data c).meetingDays ∧
      (flatten_course_data { c with meetingsFaculty := ms }).meetingTimes =
        (flatten_course_data c).meetingTimes ∧
      (flatten_course_data { c with meetingsFaculty := ms }).location =
        (flatten_course_data c).location) ∧
    ((flatten_course_data c).meetingDays = String.intercalate ", " (meetingDaysList l) ∧
      (flatten_course_data c).meetingTimes = String.intercalate ", " (meetingTimesList l) ∧
      (flatten_course_data c).location = String.intercalate ", " (fmtLocationsList l)) := by
  obtain ⟨m, msx, rfl⟩ : ∃ m msx, l = m :: msx := by
    rcases l with _ | ⟨m, msx⟩
    · exact absurd rfl hne
    · exact ⟨m, msx, rfl⟩
  constructor
  · refine ⟨?_, ?_, ?_⟩ <;>
      simp [flatten_course_data, courseMeetingDays, courseMeetingTimes,
        courseMeetingLocations, truthyList, h]
  · refine ⟨?_, ?_, ?_⟩ <;>
      simp [flatten_course_data, courseMeetingDays, courseMeetingTimes,
        courseMeetingLocations, truthyList, h]

theorem flatten_fmt_supersedes_witness :
    (flatten_course_data { mismatchCourse with
        meetingsFaculty := some [{ meetingTime := some smithMT }] }).meetingDays =
      (flatten_course_data mismatchCourse).meetingDays :=
  (flatten_fmt_supersedes mismatchCourse [eDayOnly, eDayTime]
    (some [{ meetingTime := some smithMT }]) rfl (by decide)).1.1

/-- C5: the worked example — a summary with faculty `A. Smith`, no detail
attachments and one embedded meeting entry (Monday+Wednesday, 1000–1050,
building WENT, room 100) flattens to Faculty `A. Smith`, Meeting Days `MW`,
Meeting Times `1000-1050`, Location `WENT 100`. -/
theorem flatten_smith_example :
    (flatten_course_data smithCourse).faculty = "A. Smith" ∧
    (flatten_course_data smithCourse).meetingDays = "MW" ∧
    (flatten_course_data smithCourse).meetingTimes = "1000-1050" ∧
    (flatten_course_data smithCourse).location = "WENT 100" := by
  decide

/-- C6: `flatten_course_data` is total — on any summary it produces the fixed
record, and every field whose source key is absent is the empty string: each
scalar passthrough, the faculty join, and (when neither meeting source is
attached) the three meeting-derived fields. -/
theorem flatten_absent_fields_empty (c : Course) :
    (c.courseReferenceNumber = none → (flatten_course_data c).crn = "") ∧
    (c.subject = none → (flatten_course_data c).subject = "") ∧
    (c.courseNumber = none → (flatten_course_data c).courseNumber = "") ∧
    (c.sequenceNumber = none → (flatten_course_data c).sectionNumber = "") ∧
    (c.courseTitle = none → (flatten_course_data c).title = "") ∧
    (c.creditHours = none → (flatten_course_data c).creditHours = "") ∧
    (c.scheduleTypeDescription = none → (flatten_course_data c).scheduleType = "") ∧
    (c.instructionalMethod = none → (flatten_course_data c).instructionalMethod = "") ∧
    (c.campusDescription = none → (flatten_course_data c).campus = "") ∧
    (c.enrollment = none → (flatten_course_data c).enrollmentCurrent = "") ∧
    (c.maximumEnrollment = none → (flatten_course_data c).enrollmentMax = "") ∧
    (c.seatsAvailable = none → (flatten_course_data c).seatsAvailable = "") ∧
    (c.waitCount = none → (flatten_course_data c).waitlistCurrent = "") ∧
    (c.waitCapacity = none → (flatten_course_data c).waitlistMax = "") ∧
    (c.faculty = none → (flatten_course_data c).faculty = "") ∧
    (c.fmtTimes = none → c.meetingsFaculty = none →
      (flatten_course_data c).meetingDays = "" ∧
      (flatten_course_data c).meetingTimes = "" ∧
      (flatten_course_data c).location = "") := by
  refine ⟨fun h => by simp [flatten_course_data, h],
    fun h => by simp [flatten_course_data, h],
    fun h => by simp [flatten_course_data, h],
    fun h => by simp [flatten_course_data, h],
    fun h => by simp [flatten_course_data, h],
    fun h => by simp [flatten_course_data, h],
    fun h => by simp [flatten_course_data, h],
    fun h => by simp [flatten_course_data, h],
    fun h => by simp [flatten_course_data, h],
    fun h => by simp [flatten_course_data, h],
    fun h => by simp [flatten_course_data, h],
    fun h => by simp [flatten_course_data, h],
    fun h => by simp [flatten_course_data, h],
    fun h => by simp [flatten_course_data, h],
    fun h => by simp [flatten_course_data, facultyNames, h, String.intercalate],
    fun h1 h2 => ?_⟩
  refine ⟨?_, ?_, ?_⟩ <;>
    simp [flatten_course_data, courseMeetingDays, courseMeetingTimes,
      courseMeetingLocations, truthyList, h1, h2, String.intercalate]

theorem flatten_absent_fields_empty_witness :
    (flatten_course_data emptyCourse).crn = "" ∧
    (flatten_course_data emptyCourse).faculty = "" ∧
    (flatten_course_data emptyCourse).meetingDays = "" := by
  obtain ⟨h1, _, _, _, _, _, _, _, _, _, _, _, _, _, hfac, hmeet⟩ :=
    flatten_absent_fields_empty emptyCourse
  exact ⟨h1 rfl, hfac rfl, (hmeet rfl rfl).1⟩

/-- C7: `initialize_search_session` fails exactly when the transport call
raises, the server returns an error status (`raise_for_status`), or the
response carries no truthy `JSESSIONID` cookie; on success it returns the
cookie value and stores it in `session_cookie` for subsequent requests. -/
theorem session_init_spec (st : ClientState) (r : InitResponse) :
    ((∃ e, initialize_search_session st r = .error e) ↔
      r = .failure ∨ ∃ status j, r = .response status j ∧
        (isErrorStatus status = true ∨ j = none ∨ j = some "")) ∧
    (∀ status jv, r = .response status (some jv) → isErrorStatus status = false →
      jv ≠ "" →
      initialize_search_session st r = .ok (jv, { st with sessionCookie := some jv })) := by
  cases r with
  | failure =>
    refine ⟨⟨fun _ => Or.inl rfl,
      fun _ => ⟨"Failed to initialize search session", rfl⟩⟩, ?_⟩
    intro status jv heq
    exact absurd heq (by simp)
  | response status j =>
    constructor
    · constructor
      · rintro ⟨e, he⟩
        refine Or.inr ⟨status, j, rfl, ?_⟩
        by_cases hs : isErrorStatus status = true
        · exact Or.inl hs
        · rcases j with _ | jv
          · exact Or.inr (Or.inl rfl)
          · by_cases hj : jv = ""
            · subst hj
              exact Or.inr (Or.inr rfl)
            · simp [initialize_search_session, hs, hj] at he
      · rintro (h | ⟨status2, j2, heq, hcond⟩)
        · exact absurd h (by simp)
        · injection heq with h1 h2
          subst h1
          subst h2
          rcases hcond with hs | hj | hj
          · exact ⟨"Failed to initialize search session",
              by simp [initialize_search_session, hs]⟩
          · subst hj
            by_cases hs : isErrorStatus status = true
            · exact ⟨"Failed to initialize search session",
                by simp [initialize_search_session, hs]⟩
            · exact ⟨"Failed to obtain session cookie",
                by simp [initialize_search_session, hs]⟩
          · subst hj
            by_cases hs : isErrorStatus status = true
            · exact ⟨"Failed to initialize search session",
                by simp [initialize_search_session, hs]⟩
            · exact ⟨"Failed to obtain session cookie",
                by simp [initialize_search_session, hs]⟩
    · intro status2 jv heq hs hj
      injection heq with h1 h2
      subst h1
      subst h2
      simp [initialize_search_session, hs, hj]

theorem session_init_spec_witness :
    initialize_search_session { sessionCookie := none } (.response 200 (some "ABC")) =
      .ok ("ABC", { sessionCookie := some "ABC" }) :=
  (session_init_spec { sessionCookie := none } (.response 200 (some "ABC"))).2 200 "ABC"
    rfl (by decide) (by decide)

theorem enrichOne_of_crn_none (d : String → LookupResponse ClassDetail)
    (f : String → LookupResponse FmtResponse) (c : Course)
    (hcrn : c.courseReferenceNumber = none) : enrichOne d f c = c := by
  unfold enrichOne
  rw [hcrn]

theorem enrichOne_of_crn_empty (d : String → LookupResponse ClassDetail)
    (f : String → LookupResponse FmtResponse) (c : Course) (crn : String)
    (hcrn : c.courseReferenceNumber = some crn) (hc : crn = "") :
    enrichOne d f c = c := by
  simp only [enrichOne, hcrn]
  rw [if_pos hc]

theorem enrichOne_eq (d : String → LookupResponse ClassDetail)
    (f : String → LookupResponse FmtResponse) (c : Course) (crn : String)
    (hcrn : c.courseReferenceNumber = some crn) (hc : crn ≠ "") :
    enrichOne d f c = attachFmt f crn (attachDetails d crn c) := by
  simp only [enrichOne, hcrn]
  rw [if_neg hc]

theorem attachDetails_of_none (d : String → LookupResponse ClassDetail)
    (crn : String) (c : Course) (hd : get_class_details d crn = none) :
    attachDetails d crn c = c := by
  unfold attachDetails
  rw [hd]

theorem attachDetails_of_some (d : String → LookupResponse ClassDetail)
    (crn : String) (c : Course) (det : ClassDetail)
    (hd : get_class_details d crn = some det) :
    attachDetails d crn c = { c with detailed := some det } := by
  unfold attachDetails
  rw [hd]

theorem attachFmt_of_none (f : String → LookupResponse FmtResponse)
    (crn : String) (c : Course) (hf : get_faculty_meeting_times f crn = none) :
    attachFmt f crn c = c := by
  unfold attachFmt
  rw [hf]

theorem attachFmt_of_falsy (f : String → LookupResponse FmtResponse)
    (crn : String) (c : Course) (resp : FmtResponse)
    (hf : get_faculty_meeting_times f crn = some resp)
    (hfmt : resp.fmt = none ∨ resp.fmt = some []) :
    attachFmt f crn c = c := by
  unfold attachFmt
  rw [hf]
  rcases hfmt with hfmt | hfmt <;> simp [hfmt]

theorem attachFmt_of_cons (f : String → LookupResponse FmtResponse)
    (crn : String) (c : Course) (resp : FmtResponse) (m : MeetingEntry)
    (ms : List MeetingEntry) (hf : get_faculty_meeting_times f crn = some resp)
    (hfmt : resp.fmt = some (m :: ms)) :
    attachFmt f crn c = { c with fmtTimes := some (m :: ms) } := by
  unfold attachFmt
  rw [hf]
  simp [hfmt]

theorem enrichOne_shape (d : String → LookupResponse ClassDetail)
    (f : String → LookupResponse FmtResponse) (c : Course) :
    ∃ dt ft, enrichOne d f c = { c with detailed := dt, fmtTimes := ft } := by
  by_cases hnone : c.courseReferenceNumber = none
  · exact ⟨c.detailed, c.fmtTimes, enrichOne_of_crn_none d f c hnone⟩
  · obtain ⟨crn, hcrn⟩ := Option.ne_none_iff_exists'.mp hnone
    by_cases hc : crn = ""
    · exact ⟨c.detailed, c.fmtTimes, enrichOne_of_crn_empty d f c crn hcrn hc⟩
    · rw [enrichOne_eq d f c crn hcrn hc]
      rcases hd : get_class_details d crn with _ | det
      · rw [attachDetails_of_none d crn c hd]
        rcases hf : get_faculty_meeting_times f crn with _ | resp
        · exact ⟨c.detailed, c.fmtTimes, attachFmt_of_none f crn c hf⟩
        · rcases hfmt : resp.fmt with _ | l
          · exact ⟨c.detailed, c.fmtTimes, attachFmt_of_falsy f crn c resp hf (Or.inl hfmt)⟩
          · rcases l with _ | ⟨m, ms⟩
            · exact ⟨c.detailed, c.fmtTimes,
                attachFmt_of_falsy f crn c resp hf (Or.inr hfmt)⟩
            · exact ⟨c.detailed, some (m :: ms),
                attachFmt_of_cons f crn c resp m ms hf hfmt⟩
      · rw [attachDetails_of_some d crn c det hd]
        rcases hf : get_faculty_meeting_times f crn with _ | resp
        · exact ⟨some det, c.fmtTimes,
            attachFmt_of_none f crn { c with detailed := some det } hf⟩
        · rcases hfmt : resp.fmt with _ | l
          · exact ⟨some det, c.fmtTimes,
              attachFmt_of_falsy f crn { c with detailed := some det } resp hf (Or.inl hfmt)⟩
          · rcases l with _ | ⟨m, ms⟩
            · exact ⟨some det, c.fmtTimes,
                attachFmt_of_falsy f crn { c with detailed := some det } resp hf (Or.inr hfmt)⟩
            · exact ⟨some det, some (m :: ms),
                attachFmt_of_cons f crn { c with detailed := some det } resp m ms hf hfmt⟩

theorem flatten_update_attachments (c : Course) (dt : Option ClassDetail)
    (ft : Option (List MeetingEntry)) :
    agreeNonMeeting (flatten_course_data { c with detailed := dt, fmtTimes := ft })
      (flatten_course_data c) :=
  ⟨rfl, rfl, rfl, rfl, rfl, rfl, rfl, rfl, rfl, rfl, rfl, rfl, rfl, rfl, rfl⟩

theorem enrichOne_keeps_summary (d : String → LookupResponse ClassDetail)
    (f : String → LookupResponse FmtResponse) (c : Course) :
    sameSummaryFields (enrichOne d f c) c := by
  obtain ⟨dt, ft, hsh⟩ := enrichOne_shape d f c
  rw [hsh]
  exact ⟨rfl, rfl, rfl, rfl, rfl, rfl, rfl, rfl, rfl, rfl, rfl, rfl, rfl, rfl, rfl, rfl⟩

/-- C4: a failing per-course lookup (transport error, error status, or empty
body — anything making the lookup return `None`) affects only that course's
attachment: with class details failing and faculty meeting times succeeding
with a truthy `fmt` list, the course gets the meeting-time attachment and no
`_detailed` key, while enrichment stays a per-index map over the whole list
and the overall catalog result is still produced. -/
theorem enrich_partial_failure (d : String → LookupResponse ClassDetail)
    (f : String → LookupResponse FmtResponse) (courses : List Course)
    (c : Course) (crn : String) (resp : FmtResponse) (l : List MeetingEntry)
    (hc : c.courseReferenceNumber = some crn) (hcrn : crn ≠ "")
    (hd : get_class_details d crn = none)
    (hf : get_faculty_meeting_times f crn = some resp)
    (hfmt : resp.fmt = some l) (hne : l ≠ []) :
    enrichOne d f c = { c with fmtTimes := some l } ∧
    (∀ server : Nat → Page Course, (get_course_catalog server d f true).isSome = true) ∧
    (enrichCourses d f courses).length = courses.length ∧
    (∀ i (hi : i < courses.length) (hi2 : i < (enrichCourses d f courses).length),
      (enrichCourses d f courses)[i] = enrichOne d f courses[i]) := by
  obtain ⟨m, ms, rfl⟩ : ∃ m ms, l = m :: ms := by
    rcases l with _ | ⟨m, ms⟩
    · exact absurd rfl hne
    · exact ⟨m, ms, rfl⟩
  refine ⟨?_, ?_, by simp [enrichCourses], ?_⟩
  · simp [enrichOne, attachFmt, attachDetails, hc, hd, hf, hfmt, hcrn]
  · intro server
    unfold get_course_catalog
    rcases hcf : catalogFetch server with _ | ⟨cs, n⟩
    · have hsome := catalogFetch_isSome server
      rw [hcf] at hsome
      simp at hsome
    · simp
  · intro i hi hi2
    simp [enrichCourses]

theorem enrich_partial_failure_witness :
    enrichOne (fun _ => LookupResponse.response 500 (some { body := "boom" }))
      (fun _ => LookupResponse.response 200 (some { fmt := some [eDayOnly] }))
      crnOnlyCourse =
      { crnOnlyCourse with fmtTimes := some [eDayOnly] } :=
  (enrich_partial_failure
    (fun _ => LookupResponse.response 500 (some { body := "boom" }))
    (fun _ => LookupResponse.response 200 (some { fmt := some [eDayOnly] }))
    [crnOnlyCourse] crnOnlyCourse "12345" { fmt := some [eDayOnly] } [eDayOnly]
    rfl (by decide) (by decide) (by decide) rfl (by decide)).1

/-- C8: on identical underlying catalog data, `detailed=True` versus
`detailed=False` yield the same record count in the same order; per index the
flattened records agree on every field other than Meeting Days, Meeting Times
and Location; and enrichment only writes the two attachment keys, never a
summary field. -/
theorem detailed_flag_frame (server : Nat → Page Course)
    (d : String → LookupResponse ClassDetail) (f : String → LookupResponse FmtResponse)
    (cs : List Course) (n : Nat) (h : catalogFetch server = some (cs, n)) :
    get_course_catalog server d f true = some (enrichCourses d f cs, n) ∧
    get_course_catalog server d f false = some (cs, n) ∧
    (enrichCourses d f cs).length = cs.length ∧
    (∀ i (hi : i < cs.length) (hi2 : i < (enrichCourses d f cs).length),
      agreeNonMeeting (flatten_course_data ((enrichCourses d f cs)[i]))
        (flatten_course_data cs[i])) ∧
    (∀ c : Course, sameSummaryFields (enrichOne d f c) c) := by
  refine ⟨?_, ?_, by simp [enrichCourses], ?_, enrichOne_keeps_summary d f⟩
  · simp [get_course_catalog, h]
  · simp [get_course_catalog, h]
  · intro i hi hi2
    have hmap : (enrichCourses d f cs)[i] = enrichOne d f cs[i] := by
      simp [enrichCourses]
    rw [hmap]
    obtain ⟨dt, ft, hsh⟩ := enrichOne_shape d f cs[i]
    rw [hsh]
    exact flatten_update_attachments _ dt ft

theorem detailed_flag_frame_witness :
    get_course_catalog (fun _ => { data := [crnOnlyCourse], totalCount := some 1 })
      (fun _ => LookupResponse.failure) (fun _ => LookupResponse.failure) false =
      some ([crnOnlyCourse], 1) :=
  (detailed_flag_frame (fun _ => { data := [crnOnlyCourse], totalCount := some 1 })
    (fun _ => LookupResponse.failure) (fun _ => LookupResponse.failure)
    [crnOnlyCourse] 1 (by decide)).2.1

/-- C9: faculty-meeting-time data is attached iff the lookup succeeded with a
truthy (nonempty) `fmt` list, and the attached value is the `fmt` list itself
(unwrapped); the flattener takes the faculty-meeting-times branch only for a
truthy attached list — for a falsy one the three meeting fields are computed
exactly as if the attachment key were absent — and for a truthy one they come
from the attached list. -/
theorem fmt_attachment_spec (d : String → LookupResponse ClassDetail)
    (f : String → LookupResponse FmtResponse) (c : Course) (crn : String)
    (hc : c.courseReferenceNumber = some crn) (hcrn : crn ≠ "")
    (h0 : c.fmtTimes = none) :
    (∀ l : List MeetingEntry,
      ((enrichOne d f c).fmtTimes = some l ↔
        l ≠ [] ∧ ∃ resp, get_faculty_meeting_times f crn = some resp ∧
          resp.fmt = some l)) ∧
    (∀ c2 : Course, truthyList c2.fmtTimes = false →
      (flatten_course_data c2).meetingDays =
          (flatten_course_data { c2 with fmtTimes := none }).meetingDays ∧
      (flatten_course_data c2).meetingTimes =
          (flatten_course_data { c2 with fmtTimes := none }).meetingTimes ∧
      (flatten_course_data c2).location =
          (flatten_course_data { c2 with fmtTimes := none }).location) ∧
    (∀ (c3 : Course) (l3 : List MeetingEntry), c3.fmtTimes = some l3 → l3 ≠ [] →
      courseMeetingDays c3 = meetingDaysList l3 ∧
      courseMeetingTimes c3 = meetingTimesList l3 ∧
      courseMeetingLocations c3 = fmtLocationsList l3) := by
  refine ⟨?_, ?_, ?_⟩
  · intro l
    rw [enrichOne_eq d f c crn hc hcrn]
    have hdfmt : (attachDetails d crn c).fmtTimes = none := by
      rcases hd : get_class_details d crn with _ | det
      · rw [attachDetails_of_none d crn c hd]
        exact h0
      · rw [attachDetails_of_some d crn c det hd]
        exact h0
    rcases hf : get_faculty_meeting_times f crn with _ | resp
    · rw [attachFmt_of_none f crn _ hf, hdfmt]
      constructor
      · intro hx
        exact absurd hx (by simp)
      · rintro ⟨hne, resp2, hresp2, hfmt2⟩
        simp at hresp2
    · rcases hfmt : resp.fmt with _ | l2
      · rw [attachFmt_of_falsy f crn _ resp hf (Or.inl hfmt), hdfmt]
        constructor
        · intro hx
          exact absurd hx (by simp)
        · rintro ⟨hne, resp2, hresp2, hfmt2⟩
          injection hresp2 with he
          subst he
          rw [hfmt] at hfmt2
          exact absurd hfmt2 (by simp)
      · rcases l2 with _ | ⟨m, ms⟩
        · rw [attachFmt_of_falsy f crn _ resp hf (Or.inr hfmt), hdfmt]
          constructor
          · intro hx
            exact absurd hx (by simp)
          · rintro ⟨hne, resp2, hresp2, hfmt2⟩
            injection hresp2 with he
            subst he
            rw [hfmt] at hfmt2
            injection hfmt2 with he2
            exact (hne he2.symm).elim
        · rw [attachFmt_of_cons f crn _ resp m ms hf hfmt]
          constructor
          · intro hx
            have he : some (m :: ms) = some l := hx
            injection he with he2
            exact ⟨he2 ▸ List.cons_ne_nil m ms, resp, rfl, he2 ▸ hfmt⟩
          · rintro ⟨hne, resp2, hresp2, hfmt2⟩
            injection hresp2 with he
            subst he
            rw [hfmt] at hfmt2
            exact hfmt2
  · intro c2 htr
    have hcases : c2.fmtTimes = none ∨ c2.fmtTimes = some [] := by
      rcases hf2 : c2.fmtTimes with _ | l2
      · exact Or.inl rfl
      · rcases l2 with _ | ⟨x, xs⟩
        · exact Or.inr rfl
        · rw [hf2] at htr
          simp [truthyList] at htr
    refine ⟨?_, ?_, ?_⟩ <;>
      rcases hcases with h2 | h2 <;>
        simp [flatten_course_data, courseMeetingDays, courseMeetingTimes,
          courseMeetingLocations, truthyList, h2]
  · intro c3 l3 h3 hne3
    obtain ⟨m, ms, rfl⟩ : ∃ m ms, l3 = m :: ms := by
      rcases l3 with _ | ⟨m, ms⟩
      · exact absurd rfl hne3
      · exact ⟨m, ms, rfl⟩
    refine ⟨?_, ?_, ?_⟩ <;>
      simp [courseMeetingDays, courseMeetingTimes, courseMeetingLocations,
        truthyList, h3]

theorem fmt_attachment_spec_witness :
    (enrichOne (fun _ => LookupResponse.failure)
      (fun _ => LookupResponse.response 200 (some { fmt := some [eDayOnly] }))
      crnOnlyCourse).fmtTimes = some [eDayOnly] :=
  ((fmt_attachment_spec (fun _ => LookupResponse.failure)
    (fun _ => LookupResponse.response 200 (some { fmt := some [eDayOnly] }))
    crnOnlyCourse "12345" rfl (by decide) rfl).1 [eDayOnly]).mpr
    ⟨by decide, { fmt := some [eDayOnly] }, by decide, rfl⟩

/-- C10: the three meeting-derived lists are filtered independently per
entry — an entry with no truthy day flag contributes no day string, one
missing a begin or end time contributes no time string, and one with no
building, buildingDescription or room contributes no location string — so on
some inputs the joined Meeting Days, Meeting Times and Location fields carry
different entry counts and lose positional correspondence, as on the concrete
two-entry input below. -/
theorem meeting_lists_filtered_independently :
    (∀ (e : MeetingEntry) (es : List MeetingEntry),
      (meetingTimeOf e).monday = false → (meetingTimeOf e).tuesday = false →
      (meetingTimeOf e).wednesday = false → (meetingTimeOf e).thursday = false →
      (meetingTimeOf e).friday = false → (meetingTimeOf e).saturday = false →
      (meetingTimeOf e).sunday = false →
      meetingDaysList (e :: es) = meetingDaysList es) ∧
    (∀ (e : MeetingEntry) (es : List MeetingEntry),
      (meetingTimeOf e).beginTime = "" ∨ (meetingTimeOf e).endTime = "" →
      meetingTimesList (e :: es) = meetingTimesList es) ∧
    (∀ (e : MeetingEntry) (es : List MeetingEntry),
      (meetingTimeOf e).building = "" → (meetingTimeOf e).buildingDescription = "" →
      (meetingTimeOf e).room = "" →
      fmtLocationsList (e :: es) = fmtLocationsList es) ∧
    ((meetingDaysList [eDayOnly, eDayTime]).length = 2 ∧
      (meetingTimesList [eDayOnly, eDayTime]).length = 1 ∧
      (fmtLocationsList [eDayOnly, eDayTime]).length = 0) ∧
    ((flatten_course_data mismatchCourse).meetingDays = "M, T" ∧
      (flatten_course_data mismatchCourse).meetingTimes = "0800-0900" ∧
      (flatten_course_data mismatchCourse).location = "") := by
  refine ⟨?_, ?_, ?_, by decide, by decide⟩
  · intro e es h1 h2 h3 h4 h5 h6 h7
    simp [meetingDaysList, dayString, h1, h2, h3, h4, h5, h6, h7, String.join]
  · intro e es h
    rcases h with h | h <;> simp [meetingTimesList, h]
  · intro e es h1 h2 h3
    simp [fmtLocationsList, fmtLocation, fmtLocationString, fmtBaseLocation, h1, h2, h3]

theorem meeting_lists_filtered_independently_witness :
    meetingDaysList [{ meetingTime := none }] = meetingDaysList [] ∧
    meetingTimesList [{ meetingTime := none }] = meetingTimesList [] ∧
    fmtLocationsList [{ meetingTime := none }] = fmtLocationsList [] := by
  obtain ⟨hdays, htimes, hlocs, _, _⟩ := meeting_lists_filtered_independently
  exact ⟨hdays { meetingTime := none } [] rfl rfl rfl rfl rfl rfl rfl,
    htimes { meetingTime := none } [] (Or.inl rfl),
    hlocs { meetingTime := none } [] rfl rfl rfl⟩
